import Mathlib

/-!
Verification development for the `multi_agent` supervision runtime
(src/multi_agent/{types,resource_scheduler,agent_pool,health_monitor,
message_bus,agent_manager,mod}.rs).

Modelling conventions:
- Machine time (`chrono::Utc::now()`, `tokio::time::Instant::now()`) is an
  explicit `Nat` clock threaded through the state; the two `now()` calls
  inside one operation observe the same instant.
- `f64` utilization percentages are modelled as `ℚ`; only their order
  comparisons matter to the code.
- `HashMap` fields are modelled as association lists with HashMap
  semantics: insert replaces the key, remove drops it, lookup finds it.
- Agent ids (random UUID strings in the code) are modelled as the
  numbers of a fresh-id counter; the message bus, whose broadcast derives
  textual per-recipient ids, keeps `String` ids.
- The mpsc mailbox send-end is modelled by a `mailboxOpen` flag on the
  handle (a send fails exactly when the worker receiver is gone), and the
  bounded response wait of `send_message_to_agent` by an
  `Option String` argument: `some r` means the worker answered `r` within
  the wait budget, `none` means it did not.
-/

namespace MultiAgent

/-- Agent lifecycle status, from `types.rs` (`enum AgentStatus`). -/
inductive AgentStatus where
  | Starting
  | Running
  | Idle
  | Busy
  | Error (msg : String)
  | Stopping
  | Stopped
deriving DecidableEq, Repr

/-- Configuration record, from `types.rs` (`struct AgentConfig`). -/
structure AgentConfig where
  max_agents : Nat
  default_timeout_seconds : Nat
  health_check_interval_seconds : Nat
  message_queue_size : Nat
  memory_limit_percent : ℚ
  cpu_limit_percent : ℚ
deriving DecidableEq, Repr

/-- The `Default` impl for `AgentConfig` in `types.rs`. -/
def AgentConfig.default : AgentConfig :=
  { max_agents := 10
    default_timeout_seconds := 300
    health_check_interval_seconds := 60
    message_queue_size := 1000
    memory_limit_percent := 80
    cpu_limit_percent := 80 }

/-- Sampled host utilization, from `resource_scheduler.rs`
(`struct SystemStats`); both start at 0.0 in `ResourceScheduler::new`. -/
structure SystemStats where
  memory_usage_percent : ℚ
  cpu_usage_percent : ℚ
deriving DecidableEq, Repr

/-- The state owned by `ResourceScheduler` (`resource_scheduler.rs`):
the config, the active-slot counter and the sampled stats. -/
structure SchedulerState where
  config : AgentConfig
  active_agents : Nat
  stats : SystemStats
deriving DecidableEq, Repr

/-- `ResourceScheduler::can_create_agent`: false when the slot count has
reached `max_agents`, otherwise both sampled percentages must be strictly
below their limits. -/
def can_create_agent (s : SchedulerState) : Bool :=
  if s.config.max_agents ≤ s.active_agents then false
  else
    decide (s.stats.memory_usage_percent < s.config.memory_limit_percent) &&
    decide (s.stats.cpu_usage_percent < s.config.cpu_limit_percent)

/-- `ResourceScheduler::reserve_agent_slot` run as one sequential
operation (the re-check followed by the increment, with no interleaving
in between): `true` means the slot was granted. -/
def reserve_agent_slot (s : SchedulerState) : SchedulerState × Bool :=
  if can_create_agent s then
    ({ s with active_agents := s.active_agents + 1 }, true)
  else (s, false)

/-- `ResourceScheduler::release_agent_slot`: decrement saturating at
zero. -/
def release_agent_slot (s : SchedulerState) : SchedulerState :=
  if 0 < s.active_agents then { s with active_agents := s.active_agents - 1 }
  else s

/-- The stats value `ResourceScheduler::new` starts from (0.0 / 0.0). -/
def SystemStats.initial : SystemStats :=
  { memory_usage_percent := 0, cpu_usage_percent := 0 }

example :
    can_create_agent
      { config := AgentConfig.default, active_agents := 3, stats := SystemStats.initial }
      = true := by decide

example :
    can_create_agent
      { config := AgentConfig.default, active_agents := 10, stats := SystemStats.initial }
      = false := by decide

/-! Association-list operations with `HashMap` semantics (the maps in
the source are `HashMap<String, _>`; keys are unique there, so replace
on insert, drop every occurrence on remove, first match on lookup). -/

/-- Lookup of a key, the embedding of `HashMap::get`. -/
def lookupKey {β : Type} (k : Nat) : List (Nat × β) → Option β
  | [] => none
  | p :: rest => if p.1 = k then some p.2 else lookupKey k rest

/-- Removal of a key, the embedding of `HashMap::remove`. -/
def removeKey {β : Type} (k : Nat) : List (Nat × β) → List (Nat × β)
  | [] => []
  | p :: rest => if p.1 = k then removeKey k rest else p :: removeKey k rest

/-- Insertion of a binding, the embedding of `HashMap::insert`
(replaces any prior binding of the key). -/
def insertKey {β : Type} (k : Nat) (v : β) (l : List (Nat × β)) : List (Nat × β) :=
  (k, v) :: removeKey k l

/-- In-place mutation through `HashMap::get_mut`: apply `f` to the
value bound to `k`, leave the map unchanged when `k` is absent. -/
def updateEntry {β : Type} (k : Nat) (f : β → β) : List (Nat × β) → List (Nat × β)
  | [] => []
  | p :: rest => if p.1 = k then (p.1, f p.2) :: rest else p :: updateEntry k f rest

/-! The agent pool data model, from `types.rs` and `agent_pool.rs`.
The `capabilities` list and `metadata` map of the Rust `Agent` record,
and its random display name, play no role in any verified property and
are carried as plain data (name) or omitted (capabilities, metadata). -/

/-- One pool record, from `types.rs` (`struct Agent`). -/
structure Agent where
  id : Nat
  name : String
  agent_type : String
  task : String
  status : AgentStatus
  created_at : Nat
  last_active : Nat
deriving DecidableEq, Repr

/-- The runtime counterpart, from `types.rs` (`struct AgentHandle`):
the mailbox send-end is represented by whether the worker receiver is
still alive, the `JoinHandle` carries no observable state. -/
structure AgentHandle where
  id : Nat
  mailboxOpen : Bool
deriving DecidableEq, Repr

/-- The stored pair, from `agent_pool.rs` (`struct AgentInstance`). -/
structure AgentInstance where
  agent : Agent
  handle : AgentHandle
deriving DecidableEq, Repr

/-- The pool map owned by `AgentPool` (`agents: HashMap<String, AgentInstance>`). -/
abbrev Pool := List (Nat × AgentInstance)

/-- A creation request, from `types.rs` (`struct CreateAgentRequest`);
`capabilities`, `priority` and `metadata` are untouched by every claim
and omitted. -/
structure CreateAgentRequest where
  agent_type : String
  task : String
  timeout_seconds : Option Nat
deriving DecidableEq, Repr

/-- Stand-in for `AgentPool::generate_cool_name`, which picks a random
member of a fixed per-type name list; the choice is immaterial, a
deterministic representative is used. -/
def generate_cool_name (agent_type : String) : String :=
  "Fux-" ++ agent_type

namespace AgentPool

/-- `AgentPool::create_agent` (`agent_pool.rs`): build the record in
`Starting` with both timestamps at the current instant, spawn the
worker (whose fresh mailbox is open), flip a copy to `Running`, store
the pair under the fresh id and return the id. The worker spawn in the
source cannot fail before the insert. -/
def create_agent (pool : Pool) (req : CreateAgentRequest) (aid now : Nat) : Pool × Nat :=
  let agent : Agent :=
    { id := aid
      name := generate_cool_name req.agent_type
      agent_type := req.agent_type
      task := req.task
      status := AgentStatus.Starting
      created_at := now
      last_active := now }
  let handle : AgentHandle := { id := aid, mailboxOpen := true }
  let agent_with_running_status := { agent with status := AgentStatus.Running }
  (insertKey aid { agent := agent_with_running_status, handle := handle } pool, aid)

/-- `AgentPool::stop_agent`: remove the entry if present (aborting the
worker and posting the best-effort STOP message have no effect on the
pool map) and report whether it existed. -/
def stop_agent (pool : Pool) (aid : Nat) : Pool × Bool :=
  if (lookupKey aid pool).isSome then (removeKey aid pool, true) else (pool, false)

/-- `AgentPool::list_agents`: value copies of all records. -/
def list_agents (pool : Pool) : List Agent :=
  pool.map (fun p => p.2.agent)

/-- `AgentPool::update_agent_status`: mutate the stored status and
refresh `last_active`; no-op on a missing id. (The completion
notification it may emit is outside the pool state.) -/
def update_agent_status (pool : Pool) (aid : Nat) (st : AgentStatus) (now : Nat) : Pool :=
  updateEntry aid
    (fun inst => { inst with agent := { inst.agent with status := st, last_active := now } })
    pool

/-- `AgentPool::cleanup_stopped_agents`: retain every record whose
status is not `Stopped`, return the evicted count. -/
def cleanup_stopped_agents (pool : Pool) : Pool × Nat :=
  let kept := pool.filter (fun p => !(decide (p.2.agent.status = AgentStatus.Stopped)))
  (kept, pool.length - kept.length)

end AgentPool

/-- Error classes of `AgentPool::send_message_to_agent`
(`agent_pool.rs`, the three `Err` strings). -/
inductive SendError where
  | notFound (aid : Nat)
  | sendFailed (aid : Nat)
  | responseTimeout
deriving DecidableEq, Repr

/-- The fixed response-wait budget of `AgentPool::send_message_to_agent`
(`tokio::time::sleep(Duration::from_secs(10))`). -/
def response_wait_budget_seconds : Nat := 10

/-- `AgentPool::send_message_to_agent`: unknown id fails NotFound; a
closed mailbox fails the send; otherwise the response race yields the
worker reply when one arrives within `response_wait_budget_seconds`
and a timeout error when none does. The pool map is only read. -/
def AgentPool.send_message_to_agent (pool : Pool) (aid : Nat) (reply : Option String) :
    Except SendError String :=
  match lookupKey aid pool with
  | none => Except.error (SendError.notFound aid)
  | some inst =>
    if inst.handle.mailboxOpen then
      match reply with
      | some r => Except.ok r
      | none => Except.error SendError.responseTimeout
    else Except.error (SendError.sendFailed aid)

/-! The health monitor, from `health_monitor.rs`. -/

/-- Per-agent liveness record (`struct AgentHealth`; the `agent_id`
field duplicates the map key and is dropped). -/
structure HealthRec where
  last_heartbeat : Nat
  timeout_duration : Nat
  status : AgentStatus
  message_count : Nat
deriving DecidableEq, Repr

/-- The map owned by `HealthMonitor` (`agent_health: HashMap<String, AgentHealth>`). -/
abbrev HealthMap := List (Nat × HealthRec)

namespace HealthMonitor

/-- `HealthMonitor::register_agent`: install a fresh record with
`last_heartbeat = now`, the given (or default) timeout, status
`Starting` and a zero message counter. -/
def register_agent (hm : HealthMap) (aid timeout now : Nat) : HealthMap :=
  insertKey aid
    { last_heartbeat := now
      timeout_duration := timeout
      status := AgentStatus.Starting
      message_count := 0 } hm

/-- `HealthMonitor::unregister_agent`: unconditional removal. -/
def unregister_agent (hm : HealthMap) (aid : Nat) : HealthMap :=
  removeKey aid hm

/-- `HealthMonitor::update_heartbeat`: through `get_mut`, refresh the
heartbeat instant, overwrite the status mirror and bump the counter;
nothing happens when the id has no record. -/
def update_heartbeat (hm : HealthMap) (aid : Nat) (st : AgentStatus) (now : Nat) : HealthMap :=
  updateEntry aid
    (fun r => { r with last_heartbeat := now, status := st, message_count := r.message_count + 1 })
    hm

/-- The overdue test of `HealthMonitor::check_timeouts`:
`now.duration_since(last_heartbeat) > timeout_duration`, where
`tokio::time::Instant` subtraction saturates at zero exactly like
`Nat` subtraction. -/
def overdue (now : Nat) (r : HealthRec) : Bool :=
  decide (r.timeout_duration < now - r.last_heartbeat)

/-- The status flip `check_timeouts` applies to an overdue record. -/
def mark_timeout (r : HealthRec) : HealthRec :=
  { r with status := AgentStatus.Error "Timeout" }

/-- One pass of `HealthMonitor::check_timeouts`: first collect every
overdue id under the read lock, then for each collected id flip its
status mirror through `get_mut` and emit the id on the notification
channel (returned as the emission list, in order). -/
def check_timeouts (now : Nat) (hm : HealthMap) : HealthMap × List Nat :=
  let timed_out_agents := (hm.filter (fun p => overdue now p.2)).map Prod.fst
  (timed_out_agents.foldl (fun acc aid => updateEntry aid mark_timeout acc) hm,
   timed_out_agents)

end HealthMonitor

/-! The message bus, from `message_bus.rs` and `types.rs`. Broadcast
derives textual per-recipient ids, so this component keeps the `String`
ids of the source. -/

/-- Message-kind tag, from `types.rs` (`enum MessageType`). -/
inductive MessageType where
  | Task
  | Response
  | Progress
  | Error
  | Status
  | Heartbeat
deriving DecidableEq, Repr

/-- A unit of mailbox traffic, from `types.rs` (`struct AgentMessage`);
the optional one-shot response channel carries no comparable state and
is not represented. -/
structure AgentMessage where
  id : String
  from_agent : Option String
  to_agent : Option String
  message_type : MessageType
  content : String
  timestamp : Nat
deriving DecidableEq, Repr

/-- The bus registration map (`agents: HashMap<String, UnboundedSender<AgentMessage>>`),
each send-end represented by whether its receiver is still alive. -/
abbrev BusRegistry := List (String × Bool)

/-- The derived per-recipient message id of `MessageBus::send_to_all_agents`
(`format!` of the original id, a dash and the recipient id). -/
def derive_recipient_id (original recipient : String) : String :=
  original ++ "-" ++ recipient

namespace MessageBus

/-- The fan-out loop of `MessageBus::send_to_all_agents`: for every
registered agent in order, send a clone of the message re-identified
for that recipient; a failed send (closed mailbox) contributes an error
string and the loop continues. Returns the successfully delivered
(recipient, message) pairs and the collected error strings. -/
def send_to_all_agents : BusRegistry → AgentMessage → List (String × AgentMessage) × List String
  | [], _ => ([], [])
  | p :: rest, m =>
    let r := send_to_all_agents rest m
    if p.2 then
      ((p.1, { m with id := derive_recipient_id m.id p.1 }) :: r.1, r.2)
    else
      (r.1, ("Failed to send to " ++ p.1) :: r.2)

/-- The result `MessageBus::send_to_all_agents` returns to its caller:
`Ok` when no per-recipient send failed, otherwise one aggregate error
joining the collected failure strings. -/
def send_to_all_agents_result (reg : BusRegistry) (m : AgentMessage) : Except String Unit :=
  let errors := (send_to_all_agents reg m).2
  if errors.isEmpty then Except.ok ()
  else Except.error ("Failed to send to some agents: " ++ String.intercalate ", " errors)

end MessageBus

/-! The composition root, from `agent_manager.rs`, and the tool layer of
`mod.rs`. The sequential state carries the four component states plus
the fresh-id source (standing in for UUID generation) and the clock. -/

/-- The state assembled by `AgentManager::new`: pool, health map, bus
registration ids, scheduler; `nextId` generates the ids `create_agent`
allocates and `clock` is the current instant. -/
structure SysState where
  nextId : Nat
  clock : Nat
  pool : Pool
  health : HealthMap
  bus : List Nat
  sched : SchedulerState
deriving DecidableEq, Repr

/-- Removal of an id from the bus registration list
(`MessageBus::unregister_agent`). -/
def removeId (aid : Nat) : List Nat → List Nat
  | [] => []
  | b :: rest => if b = aid then removeId aid rest else b :: removeId aid rest

/-- The state `AgentManager::new` starts from: everything empty, slot
counter zero, sampled stats at their initial 0.0 values. -/
def initState (cfg : AgentConfig) : SysState :=
  { nextId := 0
    clock := 0
    pool := []
    health := []
    bus := []
    sched := { config := cfg, active_agents := 0, stats := SystemStats.initial } }

namespace AgentManager

/-- `AgentManager::create_agent`: reserve a slot (check and increment,
sequentially); on success create the pool worker, register its sender
with the bus, register the id and optional timeout with the health
monitor, and immediately heartbeat it to `Running`. Pool creation
cannot fail, so the release-on-failure arm is unreachable here. -/
def create_agent (s : SysState) (req : CreateAgentRequest) : SysState × Option Nat :=
  if can_create_agent s.sched then
    let sched1 : SchedulerState := { s.sched with active_agents := s.sched.active_agents + 1 }
    let pr := AgentPool.create_agent s.pool req s.nextId s.clock
    let health1 := HealthMonitor.register_agent s.health pr.2
      (req.timeout_seconds.getD s.sched.config.default_timeout_seconds) s.clock
    let health2 := HealthMonitor.update_heartbeat health1 pr.2 AgentStatus.Running s.clock
    ({ s with
        nextId := s.nextId + 1
        pool := pr.1
        health := health2
        bus := pr.2 :: removeId pr.2 s.bus
        sched := sched1 }, some pr.2)
  else (s, none)

/-- `AgentManager::stop_agent`: pool stop first; only on a `true`
result unregister from the health monitor and the bus and release the
scheduler slot. -/
def stop_agent (s : SysState) (aid : Nat) : SysState × Bool :=
  let r := AgentPool.stop_agent s.pool aid
  if r.2 then
    ({ s with
        pool := r.1
        health := HealthMonitor.unregister_agent s.health aid
        bus := removeId aid s.bus
        sched := release_agent_slot s.sched }, true)
  else ({ s with pool := r.1 }, false)

/-- One iteration of the timeout-notification background loop in
`AgentManager::start_background_tasks`: pool stop for the received id;
only when that reports `true`, unregister health and bus and release
the slot. -/
def timeout_cleanup (s : SysState) (aid : Nat) : SysState :=
  let r := AgentPool.stop_agent s.pool aid
  if r.2 then
    { s with
        pool := r.1
        health := HealthMonitor.unregister_agent s.health aid
        bus := removeId aid s.bus
        sched := release_agent_slot s.sched }
  else { s with pool := r.1 }

/-- `AgentManager::send_message_to_agent`: forward to the pool; on
success heartbeat the agent to `Busy`, on error return it unchanged. -/
def send_message_to_agent (s : SysState) (aid : Nat) (reply : Option String) :
    SysState × Except SendError String :=
  match AgentPool.send_message_to_agent s.pool aid reply with
  | Except.ok r =>
    ({ s with health := HealthMonitor.update_heartbeat s.health aid AgentStatus.Busy s.clock },
     Except.ok r)
  | Except.error e => (s, Except.error e)

/-- The idle threshold of `AgentManager::detect_and_mark_completed_agents`
(`time_since_active > 10`). -/
def idle_reap_threshold_seconds : Nat := 10

/-- `AgentManager::detect_and_mark_completed_agents`: over a
`list_agents` snapshot, every `Running`/`Busy` agent idle strictly
longer than the threshold is marked `Stopped` through
`update_agent_status`; returns the marked count. -/
def detect_and_mark_completed_agents (s : SysState) : SysState × Nat :=
  let snapshot := AgentPool.list_agents s.pool
  let to_mark := (snapshot.filter (fun a =>
      (decide (a.status = AgentStatus.Running) || decide (a.status = AgentStatus.Busy)) &&
      decide (idle_reap_threshold_seconds < s.clock - a.last_active))).map (fun a => a.id)
  ({ s with
      pool := to_mark.foldl
        (fun p aid => AgentPool.update_agent_status p aid AgentStatus.Stopped s.clock) s.pool },
   to_mark.length)

/-- `AgentManager::cleanup_stopped_agents`: delegate to the pool. -/
def cleanup_stopped_agents (s : SysState) : SysState × Nat :=
  let r := AgentPool.cleanup_stopped_agents s.pool
  ({ s with pool := r.1 }, r.2)

end AgentManager

/-- The outcome reported by the `create_agents_parallel` tool
(`mod.rs`): either the pre-flight limit message (nothing attempted) or
the created ids together with the failure count. -/
inductive ParallelOutcome where
  | limitExceeded (existing requested : Nat)
  | finished (created : List Nat) (failed : Nat)
deriving DecidableEq, Repr

/-- `create_agents_parallel` (`mod.rs`): when the existing pool entry
count plus the batch size exceeds the hardcoded limit of 10, return at
once without creating anything; otherwise call
`AgentManager::create_agent` for each request in order, collecting
successes and counting failures. -/
def AgentManager.create_agents_parallel (s : SysState) (reqs : List CreateAgentRequest) :
    SysState × ParallelOutcome :=
  if 10 < s.pool.length + reqs.length then
    (s, ParallelOutcome.limitExceeded s.pool.length reqs.length)
  else
    let r := reqs.foldl
      (fun (acc : SysState × List Nat × Nat) req =>
        let c := AgentManager.create_agent acc.1 req
        match c.2 with
        | some aid => (c.1, acc.2.1 ++ [aid], acc.2.2)
        | none => (c.1, acc.2.1, acc.2.2 + 1))
      (s, [], 0)
    (r.1, ParallelOutcome.finished r.2.1 r.2.2)

/-- The manager-level operations a caller (or the background loops) can
interleave sequentially; `tick` lets time pass, `setStats` is the
resource sampler refresh. -/
inductive MgrOp where
  | create (req : CreateAgentRequest)
  | stop (aid : Nat)
  | timeoutEvict (aid : Nat)
  | reap
  | cleanup
  | sendMsg (aid : Nat) (reply : Option String)
  | tick (d : Nat)
  | setStats (mem cpu : ℚ)

/-- Apply one operation to the system state. -/
def applyOp (s : SysState) : MgrOp → SysState
  | MgrOp.create req => (AgentManager.create_agent s req).1
  | MgrOp.stop aid => (AgentManager.stop_agent s aid).1
  | MgrOp.timeoutEvict aid => AgentManager.timeout_cleanup s aid
  | MgrOp.reap => (AgentManager.detect_and_mark_completed_agents s).1
  | MgrOp.cleanup => (AgentManager.cleanup_stopped_agents s).1
  | MgrOp.sendMsg aid reply => (AgentManager.send_message_to_agent s aid reply).1
  | MgrOp.tick d => { s with clock := s.clock + d }
  | MgrOp.setStats mem cpu =>
    { s with sched := { s.sched with
        stats := { memory_usage_percent := mem, cpu_usage_percent := cpu } } }

/-- Run a sequence of operations from the freshly constructed manager. -/
def runOps (cfg : AgentConfig) (ops : List MgrOp) : SysState :=
  ops.foldl applyOp (initState cfg)

/-- The number of agents `list_agents` reports with a status other than
`Stopped`. -/
def non_stopped_count (pool : Pool) : Nat :=
  ((AgentPool.list_agents pool).filter
    (fun a => !(decide (a.status = AgentStatus.Stopped)))).length

/-- The inductive invariant relating the pool to the scheduler in every
reachable state: the slot counter dominates the pool size and never
exceeds the configured maximum. -/
def SysInv (s : SysState) : Prop :=
  s.pool.length ≤ s.sched.active_agents ∧
  s.sched.active_agents ≤ s.sched.config.max_agents

/-! A fine-grained model of `ResourceScheduler::reserve_agent_slot`
for two concurrent callers. The body performs two separate critical
sections on `active_agents`: first `can_create_agent().await` (read
lock, then released), then `active_agents.write().await` and the
increment. A caller can therefore be suspended between its check and
its increment while the other caller runs. Each critical section is one
atomic step; the sampled stats stay fixed during the race and are
summarized by `stats_ok`. -/

/-- Program counter of one `reserve_agent_slot` caller: before the
check, after the check with its remembered outcome, or returned. -/
inductive ReservePC where
  | start
  | checked (ok : Bool)
  | done (ok : Bool)
deriving DecidableEq, Repr

/-- Shared counter plus the two callers. -/
structure ReserveSys where
  counter : Nat
  max_agents : Nat
  stats_ok : Bool
  pc1 : ReservePC
  pc2 : ReservePC
deriving DecidableEq, Repr

/-- The `can_create_agent` body evaluated inside the read-lock critical
section. -/
def reserve_check (s : ReserveSys) : Bool :=
  decide (s.counter < s.max_agents) && s.stats_ok

/-- Interleaved execution: each rule is one critical section of one
caller. `check` reads the counter and records the admission verdict;
`incr` is the write-lock increment a caller performs after having seen
a `true` verdict; `fail` is the early error return after a `false`
verdict. -/
inductive ReserveStep : ReserveSys → ReserveSys → Prop where
  | check1 (s : ReserveSys) : s.pc1 = ReservePC.start →
      ReserveStep s { s with pc1 := ReservePC.checked (reserve_check s) }
  | incr1 (s : ReserveSys) : s.pc1 = ReservePC.checked true →
      ReserveStep s { s with counter := s.counter + 1, pc1 := ReservePC.done true }
  | fail1 (s : ReserveSys) : s.pc1 = ReservePC.checked false →
      ReserveStep s { s with pc1 := ReservePC.done false }
  | check2 (s : ReserveSys) : s.pc2 = ReservePC.start →
      ReserveStep s { s with pc2 := ReservePC.checked (reserve_check s) }
  | incr2 (s : ReserveSys) : s.pc2 = ReservePC.checked true →
      ReserveStep s { s with counter := s.counter + 1, pc2 := ReservePC.done true }
  | fail2 (s : ReserveSys) : s.pc2 = ReservePC.checked false →
      ReserveStep s { s with pc2 := ReservePC.done false }

/-- Reachability by interleaved execution. -/
def ReserveReach : ReserveSys → ReserveSys → Prop :=
  Relation.ReflTransGen ReserveStep

/-! Concrete states used by witnesses and counterexamples. -/

/-- A concrete creation request. -/
def reqEx : CreateAgentRequest :=
  { agent_type := "goose", task := "build the tool", timeout_seconds := none }

/-- Create one agent, let it idle past the reap threshold, run the
reaper, then the cleanup pass: the removal path of the idle-reaping
heuristic. -/
def C1trace : List MgrOp :=
  [MgrOp.create reqEx, MgrOp.tick 11, MgrOp.reap, MgrOp.cleanup]

/-- Eight creations followed by idle-reaping of all of them: the pool
ends empty while eight slots stay reserved. -/
def C4trace : List MgrOp :=
  List.replicate 8 (MgrOp.create reqEx) ++ [MgrOp.tick 11, MgrOp.reap, MgrOp.cleanup]

/-- The system state left by `C4trace`. -/
def C4state : SysState := runOps AgentConfig.default C4trace

/-- A freshly started manager that has created one agent (id 0). -/
def oneAgentState : SysState := runOps AgentConfig.default [MgrOp.create reqEx]

/-- The single pool entry of `oneAgentState` (the record created for
id 0 by `AgentPool.create_agent`). -/
def instEx : AgentInstance :=
  { agent :=
      { id := 0
        name := "Fux-goose"
        agent_type := "goose"
        task := "build the tool"
        status := AgentStatus.Running
        created_at := 0
        last_active := 0 }
    handle := { id := 0, mailboxOpen := true } }

/-- A scheduler whose slots are all taken. -/
def schedEx : SchedulerState :=
  { config := AgentConfig.default, active_agents := 10, stats := SystemStats.initial }

/-- A two-record health map: agent 0 overdue at instant 20, agent 1
fresh. -/
def hmEx : HealthMap :=
  [(0, { last_heartbeat := 0, timeout_duration := 5,
         status := AgentStatus.Running, message_count := 1 }),
   (1, { last_heartbeat := 18, timeout_duration := 5,
         status := AgentStatus.Running, message_count := 4 })]

/-- A concrete broadcast message. -/
def msgEx : AgentMessage :=
  { id := "m1", from_agent := none, to_agent := none,
    message_type := MessageType.Task, content := "hello", timestamp := 0 }

/-- Three bus registrations with the middle mailbox closed. -/
def regEx : BusRegistry := [("a1", true), ("a2", false), ("a3", true)]

/-- Two reserve callers about to race with one free slot left. -/
def rsStart : ReserveSys :=
  { counter := 9, max_agents := 10, stats_ok := true,
    pc1 := ReservePC.start, pc2 := ReservePC.start }

/-- The oversubscribed state the race reaches. -/
def rsOver : ReserveSys :=
  { counter := 11, max_agents := 10, stats_ok := true,
    pc1 := ReservePC.done true, pc2 := ReservePC.done true }

/-! Association-list lemmas shared by the claim proofs. -/

theorem lookupKey_removeKey {β : Type} (k : Nat) (l : List (Nat × β)) :
    lookupKey k (removeKey k l) = none := by
  induction l with
  | nil => rfl
  | cons p rest ih =>
    by_cases h : p.1 = k
    · simp [removeKey, h, ih]
    · simp [removeKey, lookupKey, h, ih]

theorem length_removeKey_le {β : Type} (k : Nat) (l : List (Nat × β)) :
    (removeKey k l).length ≤ l.length := by
  induction l with
  | nil => simp [removeKey]
  | cons p rest ih =>
    by_cases h : p.1 = k
    · simp only [removeKey, h, if_pos rfl]
      exact Nat.le_trans ih (Nat.le_succ _)
    · simp only [removeKey, if_neg h, List.length_cons]
      omega

theorem length_removeKey_lt {β : Type} (k : Nat) (l : List (Nat × β))
    (h : (lookupKey k l).isSome = true) : (removeKey k l).length < l.length := by
  induction l with
  | nil => simp [lookupKey] at h
  | cons p rest ih =>
    by_cases hp : p.1 = k
    · simp only [removeKey, if_pos hp, List.length_cons]
      exact Nat.lt_succ_of_le (length_removeKey_le k rest)
    · simp only [lookupKey, if_neg hp] at h
      simp only [removeKey, if_neg hp, List.length_cons]
      exact Nat.succ_lt_succ (ih h)

theorem length_updateEntry {β : Type} (k : Nat) (f : β → β) (l : List (Nat × β)) :
    (updateEntry k f l).length = l.length := by
  induction l with
  | nil => rfl
  | cons p rest ih =>
    by_cases h : p.1 = k
    · simp [updateEntry, h]
    · simp [updateEntry, h, ih]

theorem updateEntry_of_lookup_none {β : Type} (k : Nat) (f : β → β) (l : List (Nat × β))
    (h : lookupKey k l = none) : updateEntry k f l = l := by
  induction l with
  | nil => rfl
  | cons p rest ih =>
    by_cases hp : p.1 = k
    · simp [lookupKey, hp] at h
    · simp only [lookupKey, if_neg hp] at h
      simp [updateEntry, hp, ih h]

theorem lookupKey_updateEntry {β : Type} (k i : Nat) (f : β → β) (l : List (Nat × β)) :
    lookupKey k (updateEntry i f l) =
      if i = k then (lookupKey k l).map f else lookupKey k l := by
  induction l with
  | nil => simp [updateEntry, lookupKey]
  | cons p rest ih =>
    by_cases hpi : p.1 = i
    · by_cases hik : i = k
      · subst hik
        simp [updateEntry, lookupKey, hpi]
      · have hpk : ¬ p.1 = k := by rw [hpi]; exact hik
        simp [updateEntry, lookupKey, hpi, hpk, hik]
    · by_cases hpk : p.1 = k
      · have hik : ¬ i = k := by intro h; exact hpi (hpk.trans h.symm)
        have hki : ¬ k = i := fun hh => hik hh.symm
        simp [updateEntry, lookupKey, hpi, hpk, hik, hki]
      · simp [updateEntry, lookupKey, hpi, hpk, ih]

theorem lookupKey_mem {β : Type} {k : Nat} {v : β} {l : List (Nat × β)}
    (h : lookupKey k l = some v) : (k, v) ∈ l := by
  induction l with
  | nil => simp [lookupKey] at h
  | cons p rest ih =>
    by_cases hp : p.1 = k
    · simp only [lookupKey, if_pos hp] at h
      injection h with h2
      obtain ⟨k1, v1⟩ := p
      simp only at hp h2
      subst hp
      subst h2
      exact List.mem_cons_self _ _
    · simp only [lookupKey, if_neg hp] at h
      exact List.mem_cons_of_mem _ (ih h)

theorem mem_lookupKey {β : Type} {k : Nat} {v : β} {l : List (Nat × β)}
    (hn : (l.map Prod.fst).Nodup) (h : (k, v) ∈ l) : lookupKey k l = some v := by
  induction l with
  | nil => simp at h
  | cons p rest ih =>
    simp only [List.map_cons, List.nodup_cons] at hn
    rcases List.mem_cons.mp h with h1 | h2
    · subst h1
      simp [lookupKey]
    · have hpk : ¬ p.1 = k := by
        intro hk
        exact hn.1 (hk ▸ (List.mem_map.mpr ⟨(k, v), h2, rfl⟩))
      simp only [lookupKey, if_neg hpk]
      exact ih hn.2 h2

theorem lookupKey_foldl_updateEntry {β : Type} (f : β → β) (hf : ∀ v, f (f v) = f v)
    (ids : List Nat) (l : List (Nat × β)) (k : Nat) :
    lookupKey k (ids.foldl (fun acc i => updateEntry i f acc) l) =
      if k ∈ ids then (lookupKey k l).map f else lookupKey k l := by
  induction ids generalizing l with
  | nil => simp
  | cons i ids ih =>
    simp only [List.foldl_cons]
    rw [ih, lookupKey_updateEntry]
    by_cases hik : i = k
    · subst hik
      by_cases hm : i ∈ ids
      · simp only [hm, if_pos rfl, List.mem_cons, true_or, if_true]
        cases lookupKey i l <;> simp [hf]
      · simp [hm, List.mem_cons]
    · have hcons : (k ∈ i :: ids) = (k ∈ ids) := by
        simp only [List.mem_cons, eq_iff_iff]
        constructor
        · rintro (h1 | h2)
          · exact absurd h1.symm hik
          · exact h2
        · exact Or.inr
      by_cases hm : k ∈ ids
      · simp [hik, hm, hcons]
      · simp [hik, hm, hcons]

theorem length_foldl_updateEntry {β : Type} (f : β → β) (ids : List Nat)
    (l : List (Nat × β)) :
    (ids.foldl (fun acc i => updateEntry i f acc) l).length = l.length := by
  induction ids generalizing l with
  | nil => rfl
  | cons i ids ih =>
    simp only [List.foldl_cons]
    rw [ih, length_updateEntry]

/-! Scheduler lemmas. -/

theorem release_agent_slot_active (s : SchedulerState) :
    (release_agent_slot s).active_agents = s.active_agents - 1 := by
  unfold release_agent_slot
  by_cases h : 0 < s.active_agents
  · simp [h]
  · simp [h]
    omega

theorem release_agent_slot_config (s : SchedulerState) :
    (release_agent_slot s).config = s.config := by
  unfold release_agent_slot
  by_cases h : 0 < s.active_agents <;> simp [h]

theorem can_create_agent_lt {s : SchedulerState} (h : can_create_agent s = true) :
    s.active_agents < s.config.max_agents := by
  unfold can_create_agent at h
  by_cases hle : s.config.max_agents ≤ s.active_agents
  · simp [hle] at h
  · omega

/-- C9: `HealthMonitor::update_heartbeat` called with an id that has no
registered health record returns without error and leaves the health
map entirely unchanged (every record, every field). -/
theorem C9_heartbeat_unknown_noop (hm : HealthMap) (aid : Nat) (st : AgentStatus)
    (now : Nat) (h : lookupKey aid hm = none) :
    HealthMonitor.update_heartbeat hm aid st now = hm := by
  unfold HealthMonitor.update_heartbeat
  exact updateEntry_of_lookup_none aid _ hm h

/-- Witness for C9 at a concrete two-record map and the absent id 7. -/
theorem C9_heartbeat_unknown_noop_witness :
    HealthMonitor.update_heartbeat hmEx 7 AgentStatus.Busy 3 = hmEx :=
  C9_heartbeat_unknown_noop hmEx 7 AgentStatus.Busy 3 (by decide)

/-- C5: calling `AgentManager::stop_agent` twice in a row for the same
id: the first call reports exactly whether the agent existed, the
second call always reports false, and after both calls the active-slot
count has been decremented exactly once when the agent existed and not
at all otherwise (the release saturates at zero, so there is no double
release). -/
theorem C5_stop_agent_idempotent (s : SysState) (aid : Nat) :
    (AgentManager.stop_agent s aid).2 = (lookupKey aid s.pool).isSome ∧
    (AgentManager.stop_agent (AgentManager.stop_agent s aid).1 aid).2 = false ∧
    (AgentManager.stop_agent (AgentManager.stop_agent s aid).1 aid).1.sched.active_agents =
      (if (lookupKey aid s.pool).isSome then s.sched.active_agents - 1
       else s.sched.active_agents) := by
  by_cases h : (lookupKey aid s.pool).isSome
  · refine ⟨?_, ?_, ?_⟩
    · simp [AgentManager.stop_agent, AgentPool.stop_agent, h]
    · simp [AgentManager.stop_agent, AgentPool.stop_agent, h, lookupKey_removeKey]
    · simp [AgentManager.stop_agent, AgentPool.stop_agent, h, lookupKey_removeKey,
        release_agent_slot_active]
  · refine ⟨?_, ?_, ?_⟩
    · simp [AgentManager.stop_agent, AgentPool.stop_agent, h]
    · simp [AgentManager.stop_agent, AgentPool.stop_agent, h]
    · simp [AgentManager.stop_agent, AgentPool.stop_agent, h]

/-- C1 counterexample: the idle-reaping removal path leaks a scheduler
slot. One agent is created (one pool entry, one active slot); after 11
seconds of idleness the reaper marks it `Stopped` and the cleanup pass
removes it from the pool, yet the active-slot count is still 1, not 0 —
the agent was removed without its slot ever being decremented. -/
theorem C1_reaper_leaks_slot :
    oneAgentState.pool.length = 1 ∧
    oneAgentState.sched.active_agents = 1 ∧
    (runOps AgentConfig.default C1trace).pool = [] ∧
    (runOps AgentConfig.default C1trace).sched.active_agents = 1 := by
  refine ⟨?_, ?_, ?_, ?_⟩ <;> decide

/-- C1 (amended): the active-slot count is incremented exactly on
successful creation; explicit stop and timeout eviction each decrement
it exactly once when (and only when) they remove an agent; but the
idle-reaping path — `detect_and_mark_completed_agents` followed by
`cleanup_stopped_agents` — leaves the scheduler untouched, so agents
removed that way leak their slot. -/
theorem C1_slot_accounting (s : SysState) (aid : Nat) (req : CreateAgentRequest) :
    ((AgentManager.stop_agent s aid).1.sched.active_agents =
      if (lookupKey aid s.pool).isSome then s.sched.active_agents - 1
      else s.sched.active_agents) ∧
    ((AgentManager.timeout_cleanup s aid).sched.active_agents =
      if (lookupKey aid s.pool).isSome then s.sched.active_agents - 1
      else s.sched.active_agents) ∧
    ((AgentManager.create_agent s req).1.sched.active_agents =
      if can_create_agent s.sched then s.sched.active_agents + 1
      else s.sched.active_agents) ∧
    (AgentManager.detect_and_mark_completed_agents s).1.sched = s.sched ∧
    (AgentManager.cleanup_stopped_agents s).1.sched = s.sched := by
  refine ⟨?_, ?_, ?_, rfl, rfl⟩
  · by_cases h : (lookupKey aid s.pool).isSome
    · simp [AgentManager.stop_agent, AgentPool.stop_agent, h, release_agent_slot_active]
    · simp [AgentManager.stop_agent, AgentPool.stop_agent, h]
  · by_cases h : (lookupKey aid s.pool).isSome
    · simp [AgentManager.timeout_cleanup, AgentPool.stop_agent, h, release_agent_slot_active]
    · simp [AgentManager.timeout_cleanup, AgentPool.stop_agent, h]
  · by_cases h : can_create_agent s.sched
    · simp [AgentManager.create_agent, h]
    · simp [AgentManager.create_agent, h]

/-- C6: `send_message_to_agent` to an id absent from the pool returns
the NotFound error with the state untouched; to a present agent whose
worker sends no reply within the wait budget (fixed at 10 seconds) it
returns the ResponseTimeout error, again with the state untouched, and
the agent still appears in `list_agents` afterward. -/
theorem C6_send_message_errors (s : SysState) (aid bid : Nat) (inst : AgentInstance)
    (hb : lookupKey bid s.pool = none)
    (ha : lookupKey aid s.pool = some inst)
    (hopen : inst.handle.mailboxOpen = true) :
    AgentManager.send_message_to_agent s bid none =
      (s, Except.error (SendError.notFound bid)) ∧
    AgentManager.send_message_to_agent s aid none =
      (s, Except.error SendError.responseTimeout) ∧
    inst.agent ∈ AgentPool.list_agents (AgentManager.send_message_to_agent s aid none).1.pool ∧
    response_wait_budget_seconds = 10 := by
  have hstate : AgentManager.send_message_to_agent s aid none =
      (s, Except.error SendError.responseTimeout) := by
    simp [AgentManager.send_message_to_agent, AgentPool.send_message_to_agent, ha, hopen]
  refine ⟨?_, hstate, ?_, rfl⟩
  · simp [AgentManager.send_message_to_agent, AgentPool.send_message_to_agent, hb]
  · rw [hstate]
    exact List.mem_map.mpr ⟨(aid, inst), lookupKey_mem ha, rfl⟩

/-- Witness for C6: a one-agent pool, the absent id 5 and the present
id 0 whose worker never replies. -/
theorem C6_send_message_errors_witness :
    AgentManager.send_message_to_agent oneAgentState 5 none =
      (oneAgentState, Except.error (SendError.notFound 5)) ∧
    AgentManager.send_message_to_agent oneAgentState 0 none =
      (oneAgentState, Except.error SendError.responseTimeout) := by
  have h := C6_send_message_errors oneAgentState 0 5 instEx (by decide) (by decide) (by decide)
  exact ⟨h.1, h.2.1⟩

/-- C10: a successful `create_agent` makes the returned id visible with
a stored record whose status is already `Running` (never `Starting`)
and whose `created_at` and `last_active` both carry the creation
instant. -/
theorem C10_created_visible_running (s : SysState) (req : CreateAgentRequest)
    (h : can_create_agent s.sched = true) :
    (AgentManager.create_agent s req).2 = some s.nextId ∧
    (lookupKey s.nextId (AgentManager.create_agent s req).1.pool).map
        (fun inst => (inst.agent.status, inst.agent.created_at, inst.agent.last_active)) =
      some (AgentStatus.Running, s.clock, s.clock) := by
  unfold AgentManager.create_agent AgentPool.create_agent
  simp [h, insertKey, lookupKey]

/-- Witness for C10 at the fresh manager state and a concrete request. -/
theorem C10_created_visible_running_witness :
    (AgentManager.create_agent (initState AgentConfig.default) reqEx).2 = some 0 ∧
    (lookupKey 0 (AgentManager.create_agent (initState AgentConfig.default) reqEx).1.pool).map
        (fun inst => (inst.agent.status, inst.agent.created_at, inst.agent.last_active)) =
      some (AgentStatus.Running, 0, 0) :=
  C10_created_visible_running (initState AgentConfig.default) reqEx (by decide)

/-- C7: `send_to_all_agents` attempts delivery to every registered
agent: each open mailbox receives exactly the clone of the message
re-identified as original-dash-recipient, the closed mailboxes each
contribute one collected failure string naming that agent, a failure
never prevents delivery to the other recipients, and the call returns
Ok precisely when every registered mailbox accepted the send (otherwise
one aggregate error). -/
theorem C7_broadcast_fanout (reg : BusRegistry) (m : AgentMessage) :
    (MessageBus.send_to_all_agents reg m).1 =
      (reg.filter (fun p => p.2)).map
        (fun p => (p.1, { m with id := derive_recipient_id m.id p.1 })) ∧
    (MessageBus.send_to_all_agents reg m).2 =
      (reg.filter (fun p => !p.2)).map (fun p => "Failed to send to " ++ p.1) ∧
    (MessageBus.send_to_all_agents_result reg m = Except.ok () ↔
      reg.all (fun p => p.2) = true) := by
  have h12 : (MessageBus.send_to_all_agents reg m).1 =
      (reg.filter (fun p => p.2)).map
        (fun p => (p.1, { m with id := derive_recipient_id m.id p.1 })) ∧
      (MessageBus.send_to_all_agents reg m).2 =
        (reg.filter (fun p => !p.2)).map (fun p => "Failed to send to " ++ p.1) := by
    induction reg with
    | nil => exact ⟨rfl, rfl⟩
    | cons p rest ih =>
      by_cases hp : p.2
      · constructor
        · simp [MessageBus.send_to_all_agents, hp, ih.1]
        · simp [MessageBus.send_to_all_agents, hp, ih.2]
      · constructor
        · simp [MessageBus.send_to_all_agents, hp, ih.1]
        · simp [MessageBus.send_to_all_agents, hp, ih.2]
  refine ⟨h12.1, h12.2, ?_⟩
  unfold MessageBus.send_to_all_agents_result
  rw [h12.2]
  by_cases he : reg.filter (fun p => !p.2) = []
  · have hall : reg.all (fun p => p.2) = true := by
      rw [List.all_eq_true]
      intro p hp
      have := List.filter_eq_nil_iff.mp he p hp
      simpa using this
    simp [he, hall]
  · have hne : ¬ reg.all (fun p => p.2) = true := by
      intro hall
      apply he
      rw [List.filter_eq_nil_iff]
      intro p hp
      have := List.all_eq_true.mp hall p hp
      simp [this]
    simp [he, hne, List.map_eq_nil_iff]

/-- C8: one `check_timeouts` pass. Every registered record strictly
past its timeout gets its status mirror set to the timeout error and
its id emitted exactly once on the notification channel in that cycle;
a record not overdue keeps all its fields and emits nothing. -/
theorem C8_check_timeouts_pass (now : Nat) (hm : HealthMap) (k : Nat) (r : HealthRec)
    (hn : (hm.map Prod.fst).Nodup) (h : lookupKey k hm = some r) :
    lookupKey k (HealthMonitor.check_timeouts now hm).1 =
      some (if HealthMonitor.overdue now r = true then HealthMonitor.mark_timeout r
            else r) ∧
    (HealthMonitor.check_timeouts now hm).2.count k =
      (if HealthMonitor.overdue now r = true then 1 else 0) := by
  have hidem : ∀ v, HealthMonitor.mark_timeout (HealthMonitor.mark_timeout v) =
      HealthMonitor.mark_timeout v := fun v => rfl
  have hmemiff :
      k ∈ (hm.filter (fun p => HealthMonitor.overdue now p.2)).map Prod.fst ↔
        HealthMonitor.overdue now r = true := by
    constructor
    · intro hk
      obtain ⟨p, hpf, hpk⟩ := List.mem_map.mp hk
      have hpm := List.mem_filter.mp hpf
      have hkmem : (k, p.2) ∈ hm := by
        rw [← hpk]
        exact hpm.1
      have hlk : lookupKey k hm = some p.2 := mem_lookupKey hn hkmem
      rw [h] at hlk
      injection hlk with hr
      rw [hr]
      exact hpm.2
    · intro hov
      exact List.mem_map.mpr
        ⟨(k, r), List.mem_filter.mpr ⟨lookupKey_mem h, hov⟩, rfl⟩
  constructor
  · simp only [HealthMonitor.check_timeouts]
    rw [lookupKey_foldl_updateEntry HealthMonitor.mark_timeout hidem]
    by_cases hov : HealthMonitor.overdue now r = true
    · rw [if_pos (hmemiff.mpr hov), if_pos hov, h]
      rfl
    · rw [if_neg (fun hk => hov (hmemiff.mp hk)), if_neg hov, h]
  · have hnodup : ((hm.filter (fun p => HealthMonitor.overdue now p.2)).map Prod.fst).Nodup :=
      List.Nodup.sublist (List.Sublist.map Prod.fst (List.filter_sublist hm)) hn
    simp only [HealthMonitor.check_timeouts]
    by_cases hov : HealthMonitor.overdue now r = true
    · rw [if_pos hov]
      exact List.count_eq_one_of_mem hnodup (hmemiff.mpr hov)
    · rw [if_neg hov]
      exact List.count_eq_zero.mpr (fun hk => hov (hmemiff.mp hk))

/-- Witness for C8: agent 0 of the concrete map is overdue at instant
20 (elapsed 20, timeout 5), so its status flips and its id is emitted
once; agent 1 (elapsed 2) keeps its record and is never emitted. -/
theorem C8_check_timeouts_pass_witness :
    lookupKey 0 (HealthMonitor.check_timeouts 20 hmEx).1 =
      some (HealthMonitor.mark_timeout
        { last_heartbeat := 0, timeout_duration := 5,
          status := AgentStatus.Running, message_count := 1 }) ∧
    (HealthMonitor.check_timeouts 20 hmEx).2.count 0 = 1 ∧
    lookupKey 1 (HealthMonitor.check_timeouts 20 hmEx).1 =
      some { last_heartbeat := 18, timeout_duration := 5,
             status := AgentStatus.Running, message_count := 4 } ∧
    (HealthMonitor.check_timeouts 20 hmEx).2.count 1 = 0 := by
  have h0 := C8_check_timeouts_pass 20 hmEx 0
    { last_heartbeat := 0, timeout_duration := 5,
      status := AgentStatus.Running, message_count := 1 } (by decide) (by decide)
  have h1 := C8_check_timeouts_pass 20 hmEx 1
    { last_heartbeat := 18, timeout_duration := 5,
      status := AgentStatus.Running, message_count := 4 } (by decide) (by decide)
  refine ⟨?_, ?_, ?_, ?_⟩
  · rw [h0.1]
    decide
  · rw [h0.2]
    decide
  · rw [h1.1]
    decide
  · rw [h1.2]
    decide

/-! The C2 inductive invariant. -/

theorem applyOp_inv {s : SysState} (op : MgrOp) (h : SysInv s) : SysInv (applyOp s op) := by
  obtain ⟨h1, h2⟩ := h
  cases op with
  | create req =>
    show SysInv (AgentManager.create_agent s req).1
    by_cases hc : can_create_agent s.sched
    · have hlt := can_create_agent_lt hc
      have hrm := length_removeKey_le s.nextId s.pool
      constructor
      · simp only [AgentManager.create_agent, hc, if_true, AgentPool.create_agent, insertKey,
          List.length_cons]
        omega
      · simp only [AgentManager.create_agent, hc, if_true]
        omega
    · simp only [AgentManager.create_agent, hc, if_false]
      exact ⟨h1, h2⟩
  | stop aid =>
    show SysInv (AgentManager.stop_agent s aid).1
    by_cases hp : (lookupKey aid s.pool).isSome
    · have hlt := length_removeKey_lt aid s.pool hp
      constructor
      · simp only [AgentManager.stop_agent, AgentPool.stop_agent, hp, if_true,
          release_agent_slot_active]
        omega
      · simp only [AgentManager.stop_agent, AgentPool.stop_agent, hp, if_true,
          release_agent_slot_active, release_agent_slot_config]
        omega
    · constructor
      · simp only [AgentManager.stop_agent, AgentPool.stop_agent, hp, if_false, Bool.false_eq_true]
        exact h1
      · simp only [AgentManager.stop_agent, AgentPool.stop_agent, hp, if_false, Bool.false_eq_true]
        exact h2
  | timeoutEvict aid =>
    show SysInv (AgentManager.timeout_cleanup s aid)
    by_cases hp : (lookupKey aid s.pool).isSome
    · have hlt := length_removeKey_lt aid s.pool hp
      constructor
      · simp only [AgentManager.timeout_cleanup, AgentPool.stop_agent, hp, if_true,
          release_agent_slot_active]
        omega
      · simp only [AgentManager.timeout_cleanup, AgentPool.stop_agent, hp, if_true,
          release_agent_slot_active, release_agent_slot_config]
        omega
    · constructor
      · simp only [AgentManager.timeout_cleanup, AgentPool.stop_agent, hp, if_false,
          Bool.false_eq_true]
        exact h1
      · simp only [AgentManager.timeout_cleanup, AgentPool.stop_agent, hp, if_false,
          Bool.false_eq_true]
        exact h2
  | reap =>
    show SysInv (AgentManager.detect_and_mark_completed_agents s).1
    constructor
    · simp only [AgentManager.detect_and_mark_completed_agents,
        AgentPool.update_agent_status]
      rw [length_foldl_updateEntry]
      exact h1
    · exact h2
  | cleanup =>
    show SysInv (AgentManager.cleanup_stopped_agents s).1
    constructor
    · simp only [AgentManager.cleanup_stopped_agents, AgentPool.cleanup_stopped_agents]
      exact le_trans (List.length_filter_le _ _) h1
    · exact h2
  | sendMsg aid reply =>
    show SysInv (AgentManager.send_message_to_agent s aid reply).1
    unfold AgentManager.send_message_to_agent
    cases AgentPool.send_message_to_agent s.pool aid reply with
    | ok r => exact ⟨h1, h2⟩
    | error e => exact ⟨h1, h2⟩
  | tick d => exact ⟨h1, h2⟩
  | setStats mem cpu => exact ⟨h1, h2⟩

theorem runOps_inv (cfg : AgentConfig) (ops : List MgrOp) : SysInv (runOps cfg ops) := by
  unfold runOps
  have hgen : ∀ s : SysState, SysInv s → SysInv (ops.foldl applyOp s) := by
    induction ops with
    | nil => intro s hs; exact hs
    | cons op ops ih => intro s hs; exact ih _ (applyOp_inv op hs)
  refine hgen _ ?_
  constructor
  · simp [initState]
  · simp [initState]

/-- C2: starting from the empty pool, for every sequence of creations,
stops, timeout evictions, reaper and cleanup passes (with time passing
and the stats sampler running arbitrarily), the number of agents
`list_agents` reports with a non-`Stopped` status never exceeds the
configured `max_agents`. -/
theorem C2_capacity_bound (cfg : AgentConfig) (ops : List MgrOp) :
    non_stopped_count (runOps cfg ops).pool ≤ (runOps cfg ops).sched.config.max_agents := by
  obtain ⟨h1, h2⟩ := runOps_inv cfg ops
  have h0 : non_stopped_count (runOps cfg ops).pool ≤ (runOps cfg ops).pool.length := by
    unfold non_stopped_count AgentPool.list_agents
    exact le_trans (List.length_filter_le _ _) (le_of_eq (List.length_map _ _))
  omega

/-- C3 counterexample: the check and the increment of
`reserve_agent_slot` live in two separate critical sections with an
await point between them, so two concurrent callers starting with one
free slot (counter 9 of 10) can both pass the check before either
increments; the interleaving check-check-increment-increment is
reachable and ends with the counter at 11, above the configured
maximum. -/
theorem C3_reserve_race_oversubscribes :
    ReserveReach rsStart rsOver ∧ rsOver.max_agents < rsOver.counter := by
  constructor
  · apply Relation.ReflTransGen.head (ReserveStep.check1 rsStart rfl)
    apply Relation.ReflTransGen.head (ReserveStep.check2 _ rfl)
    apply Relation.ReflTransGen.head (ReserveStep.incr1 _ rfl)
    apply Relation.ReflTransGen.head (ReserveStep.incr2 _ rfl)
    exact Relation.ReflTransGen.refl
  · decide

/-- C3 (amended): `reserve_agent_slot` re-checks `can_create_agent`
and increments in two critical sections rather than one; run without
interleaving it never pushes the counter above the maximum and on
failure it reports the capacity error with the counter unchanged, but
the check-and-increment pair is not atomic with respect to concurrent
callers. -/
theorem C3_sequential_reserve (s : SchedulerState)
    (h : s.active_agents ≤ s.config.max_agents) :
    (reserve_agent_slot s).1.active_agents ≤ s.config.max_agents ∧
    ((reserve_agent_slot s).2 = false → (reserve_agent_slot s).1 = s) := by
  unfold reserve_agent_slot
  by_cases hc : can_create_agent s
  · have := can_create_agent_lt hc
    simp only [hc, if_true]
    constructor
    · omega
    · intro hfalse
      cases hfalse
  · simp only [hc, if_false, Bool.false_eq_true]
    exact ⟨h, fun _ => trivial⟩

/-- Witness for C3 (amended) at a fully booked scheduler. -/
theorem C3_sequential_reserve_witness :
    (reserve_agent_slot schedEx).1.active_agents ≤ schedEx.config.max_agents ∧
    (reserve_agent_slot schedEx).1 = schedEx := by
  have h := C3_sequential_reserve schedEx (by decide)
  exact ⟨h.1, h.2 (by decide)⟩

/-- C4 counterexample: after eight agents have been created and then
removed through the idle-reaping path, eight slots are still reserved
while the pool is empty, so only two of the ten slots remain. A
`create_agents_parallel` batch of five passes the pre-flight check
(0 pool entries + 5 requested does not exceed 10) and then creates two
agents (ids 8 and 9) before the remaining three requests fail: the
batch is partially created instead of creating zero agents. -/
theorem C4_parallel_partial_creation :
    C4state.pool.length = 0 ∧
    C4state.sched.config.max_agents - C4state.sched.active_agents = 2 ∧
    (AgentManager.create_agents_parallel C4state (List.replicate 5 reqEx)).2 =
      ParallelOutcome.finished [8, 9] 3 := by
  refine ⟨?_, ?_, ?_⟩ <;> decide

/-- C4 (amended): the pre-flight check of `create_agents_parallel`
compares the pool entry count plus the batch size against the
hardcoded limit 10; when that check fails the call returns at once
with the limit report and zero agents created, but the check counts
pool entries rather than free scheduler slots, so a batch that passes
it can still be created only partially when fewer slots remain than
requested. -/
theorem C4_preflight_rejects_batch (s : SysState) (reqs : List CreateAgentRequest)
    (h : 10 < s.pool.length + reqs.length) :
    AgentManager.create_agents_parallel s reqs =
      (s, ParallelOutcome.limitExceeded s.pool.length reqs.length) := by
  unfold AgentManager.create_agents_parallel
  simp [h]

/-- Witness for C4 (amended): eleven requests against the fresh
manager trip the pre-flight check. -/
theorem C4_preflight_rejects_batch_witness :
    AgentManager.create_agents_parallel (initState AgentConfig.default)
        (List.replicate 11 reqEx) =
      (initState AgentConfig.default, ParallelOutcome.limitExceeded 0 11) := by
  have h := C4_preflight_rejects_batch (initState AgentConfig.default)
    (List.replicate 11 reqEx) (by decide)
  simpa using h

end MultiAgent
